import Mathlib

set_option maxHeartbeats 1000000
set_option maxRecDepth 10000

attribute [local semireducible] Rat.mul Rat.inv Rat.add Rat.sub Rat.ofScientific

namespace AaveTest

/-!
Shallow embedding of `src/token_config.py` and `src/aave_exchange_calculator.py`.

The calculator performs its arithmetic on Python `decimal.Decimal` values under
the default context: 28 significant digits, rounding half to even.  We embed a
`Decimal` by its exact rational value; each arithmetic operation of the source
first forms the exact rational result and then rounds it to 28 significant
digits, which is value-for-value what the `decimal` module does (construction
from `str(...)` of an `int` is exact and is embedded as the rational itself).
-/

/-- Number of decimal digits of `n` (`0` for `n = 0`); fuel-based so that it
reduces in the kernel. -/
def digLenAux : Nat → Nat → Nat
  | 0, _ => 0
  | fuel + 1, n => if n = 0 then 0 else digLenAux fuel (n / 10) + 1

/-- Number of decimal digits of `n` (`0` for `n = 0`). -/
def digLen (n : Nat) : Nat := digLenAux n n

/-- Round a rational to the nearest integer, ties to even: the
`decimal.ROUND_HALF_EVEN` rounding mode of the default context. -/
def rne (x : ℚ) : ℤ :=
  if x - ⌊x⌋ < 1 / 2 then ⌊x⌋
  else if 1 / 2 < x - ⌊x⌋ then ⌊x⌋ + 1
  else if ⌊x⌋ % 2 = 0 then ⌊x⌋ else ⌊x⌋ + 1

/-- Adjusted exponent of a positive rational: the unique `e` with
`10 ^ e ≤ q < 10 ^ (e + 1)`. -/
def adjExp (q : ℚ) : ℤ :=
  let e : ℤ := (digLen q.num.natAbs : ℤ) - (digLen q.den : ℤ)
  if (10 : ℚ) ^ e ≤ q then e else e - 1

/-- Round a positive rational to 28 significant decimal digits, half to even:
the value of the result of a `decimal.Decimal` operation under the default
context (precision 28, `ROUND_HALF_EVEN`) whose exact value is `q`. -/
def decRound28 (q : ℚ) : ℚ :=
  if q ≤ 0 then 0
  else (rne (q * (10 : ℚ) ^ (27 - adjExp q)) : ℚ) * (10 : ℚ) ^ (adjExp q - 27)

/-- Multiplication of `decimal.Decimal` values under the default context. -/
def decMul (x y : ℚ) : ℚ := decRound28 (x * y)

/-- Division of `decimal.Decimal` values under the default context. -/
def decDiv (x y : ℚ) : ℚ := decRound28 (x / y)

deriving instance DecidableEq for Except

/-- Python `int()` applied to a decimal value: truncation toward zero. -/
def pyInt (q : ℚ) : ℤ := if q < 0 then -⌊-q⌋ else ⌊q⌋

/-- Structure `TokenConfig` from `src/token_config.py` (a `NamedTuple`). -/
structure TokenConfig where
  underlying_address : String
  atoken_address : String
  decimals : Nat
  symbol : String
  description : String
deriving DecidableEq

/-- The `USDC` entry of the registry. -/
def usdcConfig : TokenConfig :=
  ⟨"0xA0b86991c6218b36c1d19D4a2e9Eb0cE3606eB48",
   "0xBcca60bB61934080951369a648Fb03DF4F96263C", 6, "USDC", "USD Coin"⟩

/-- The `USDT` entry of the registry. -/
def usdtConfig : TokenConfig :=
  ⟨"0xdAC17F958D2ee523a2206206994597C13D831ec7",
   "0x3Ed3B47Dd13EC9a98b44e6204A523E766B225811", 6, "USDT", "Tether USD"⟩

/-- The `DAI` entry of the registry. -/
def daiConfig : TokenConfig :=
  ⟨"0x6B175474E89094C44Da98b954EedeAC495271d0F",
   "0x028171bCA77440897B824Ca71D1c56caC55b68A3", 18, "DAI", "Dai Stablecoin"⟩

/-- The `WETH` entry of the registry. -/
def wethConfig : TokenConfig :=
  ⟨"0xC02aaA39b223FE8D0A0e5C4F27eAD9083C756Cc2",
   "0x030bA81f1c18d280636F32af80b9AAd02Cf0854e", 18, "WETH", "Wrapped Ether"⟩

/-- The `WBTC` entry of the registry. -/
def wbtcConfig : TokenConfig :=
  ⟨"0x2260FAC5E5542a773Aa44fBCfeDf7C193bc2C599",
   "0x9ff58f4fFB29fA2266Ab25e75e2A8b3503311656", 8, "WBTC", "Wrapped Bitcoin"⟩

/-- The static `TOKENS` registry of `src/token_config.py`, as an association
list in the source's insertion order. -/
def TOKENS : List (String × TokenConfig) :=
  [ ("USDC", usdcConfig), ("USDT", usdtConfig), ("DAI", daiConfig),
    ("WETH", wethConfig), ("WBTC", wbtcConfig) ]

/-- Constant `AaveCalculator.RAY = Decimal('1e27')`: exact value `10 ^ 27`. -/
def RAY : ℚ := (10 : ℚ) ^ (27 : ℕ)

/-- Validation `AaveCalculator._validate_inputs`.  In the source both parameters may be
any Python number (`isinstance(x, (int, float))`); a finite float enters the
arithmetic as the exact decimal value of its `str(...)` form, so numeric inputs
are embedded as rationals, and the `isinstance` test is vacuously true in the
typed embedding.  Returns the `ValueError` message raised, if any. -/
def validate_inputs (amount normalized_income : ℚ) : Option String :=
  if amount ≤ 0 then some "Amount must be a positive number"
  else if normalized_income ≤ 0 then some "Normalized income must be a positive number"
  else none

/-- Method `AaveCalculator.calculate_atoken_for_token`:
`int((amount * RAY * RAY) / (token_decimals * normalized_income))` on
`Decimal`s, after `_validate_inputs`, with `token_decimals =
Decimal(f'1e{token_config.decimals}')`. -/
def calculate_atoken_for_token (amount normalized_income : ℚ)
    (token_config : TokenConfig) : Except String ℤ :=
  match validate_inputs amount normalized_income with
  | some msg => .error msg
  | none =>
      let token_decimals : ℚ := (10 : ℚ) ^ token_config.decimals
      let result := decDiv (decMul (decMul amount RAY) RAY)
                           (decMul token_decimals normalized_income)
      .ok (pyInt result)

/-- Method `AaveCalculator.calculate_token_for_atoken`:
`int((atoken_amount * normalized_income * token_decimals) / (RAY * RAY))` on
`Decimal`s, after `_validate_inputs`. -/
def calculate_token_for_atoken (atoken_amount normalized_income : ℚ)
    (token_config : TokenConfig) : Except String ℤ :=
  match validate_inputs atoken_amount normalized_income with
  | some msg => .error msg
  | none =>
      let token_decimals : ℚ := (10 : ℚ) ^ token_config.decimals
      let result := decDiv (decMul (decMul atoken_amount normalized_income) token_decimals)
                           (decMul RAY RAY)
      .ok (pyInt result)

/-- Registry lookup as performed by the source (`symbol not in TOKENS` guard in
`AaveDataProvider.get_normalized_income`, then `TOKENS[symbol]`). -/
def lookupToken (symbol : String) : Except String TokenConfig :=
  match TOKENS.lookup symbol with
  | some cfg => .ok cfg
  | none => .error ("Unsupported token: " ++ symbol)

/-- Method `AaveDataProvider.get_normalized_income`, with the on-chain read
(`getNormalizedIncome().call()`) abstracted as the external capability
`fetch` and the per-symbol cache elided (it only memoizes `fetch`). -/
def get_normalized_income (fetch : String → ℤ) (symbol : String) : Except String ℤ :=
  if (TOKENS.lookup symbol).isSome then .ok (fetch symbol)
  else .error ("Unsupported token: " ++ symbol)

/-- Left-pad a string with zeros to length 6. -/
def pad6 (s : String) : String := String.mk (List.replicate (6 - s.length) '0') ++ s

/-- Fixed-point rendering of a nonnegative decimal value with exactly six
fractional digits: Python `f"{d:.6f}"`, which rounds half to even at the sixth
fractional digit.  (Negative values never reach this in the claims considered
and are not modelled.) -/
def formatFixed6 (q : ℚ) : String :=
  let n := (rne (q * 1000000)).toNat
  toString (n / 1000000) ++ "." ++ pad6 (toString (n % 1000000))

/-- Function `format_amount`: `f"{Decimal(str(amount)) / Decimal(10**decimals):.6f}"`. -/
def format_amount (amount : ℤ) (decimals : Nat) : String :=
  formatFixed6 (decDiv (amount : ℚ) ((10 : ℚ) ^ decimals))

/-- The `Decimal` quotient computed inside `calculate_atoken_for_token` after
validation (the value whose `int(...)` truncation the method returns). -/
def receiptQuot (amount normalized_income : ℚ) (decimals : ℕ) : ℚ :=
  decDiv (decMul (decMul amount RAY) RAY) (decMul ((10 : ℚ) ^ decimals) normalized_income)

/-- The `Decimal` quotient computed inside `calculate_token_for_atoken` after
validation. -/
def baseQuot (atoken_amount normalized_income : ℚ) (decimals : ℕ) : ℚ :=
  decDiv (decMul (decMul atoken_amount normalized_income) ((10 : ℚ) ^ decimals)) (decMul RAY RAY)

/-- The exact (unbounded-precision) rational value
`amount * RAY^2 / (10^decimals * normalizedIncome)` named by the spec for
`toReceiptAmount`. -/
def exactReceipt (amount normalized_income : ℚ) (decimals : ℕ) : ℚ :=
  amount * RAY ^ 2 / ((10 : ℚ) ^ decimals * normalized_income)

/-- The exact (unbounded-precision) rational value
`receiptAmount * normalizedIncome * 10^decimals / RAY^2` named by the spec for
`toBaseAmount`. -/
def exactBase (atoken_amount normalized_income : ℚ) (decimals : ℕ) : ℚ :=
  atoken_amount * normalized_income * (10 : ℚ) ^ decimals / RAY ^ 2

/-- The spec's formula for `toReceiptAmount`, written from the spec's words:
`floor(baseAmount * RAY^2 / (10^decimals * normalizedIncome))` in exact
unbounded-precision arithmetic. -/
def specReceiptFloor (baseAmount normalizedIncome : ℤ) (decimals : Nat) : ℤ :=
  ⌊exactReceipt (baseAmount : ℚ) (normalizedIncome : ℚ) decimals⌋

/-- The spec's formula for `toBaseAmount`, written from the spec's words:
`floor(receiptAmount * normalizedIncome * 10^decimals / RAY^2)` in exact
unbounded-precision arithmetic. -/
def specBaseFloor (receiptAmount normalizedIncome : ℤ) (decimals : Nat) : ℤ :=
  ⌊exactBase (receiptAmount : ℚ) (normalizedIncome : ℚ) decimals⌋

example : digLen 999 = 3 := by decide
example : digLen 1000 = 4 := by decide
example : rne (7 / 2) = 4 := by decide
example : rne (5 / 2) = 2 := by decide
example : rne (37 / 10) = 4 := by decide
example : adjExp (3 / 2) = 0 := by decide
example : adjExp (1 / 2) = -1 := by decide
example : decRound28 3 = 3 := by decide
example : pyInt (37 / 10) = 3 := by decide

example : calculate_atoken_for_token 1 3 usdcConfig =
    .ok 333333333333333333333333333300000000000000000000 := by decide
example : calculate_token_for_atoken 1 999999999999999999999999999999999999999999999999999999
    usdcConfig = .ok 1000000 := by decide
example : calculate_atoken_for_token (10 ^ 18) (10 ^ 27) daiConfig = .ok (10 ^ 27) := by decide
example : calculate_atoken_for_token 99999999999999999999999999995 1 usdcConfig =
    .ok (10 ^ 77) := by decide
example : calculate_token_for_atoken ((10 : ℚ) ^ 77) 1 usdcConfig = .ok (10 ^ 29) := by decide
example : format_amount 1500000 6 = "1.500000" := by decide
example : format_amount 1 18 = "0.000000" := by decide
example : format_amount 999999 12 = "0.000001" := by decide

/-! Correctness of the digit-length function. -/

lemma digLenAux_zero (fuel : ℕ) : digLenAux fuel 0 = 0 := by
  cases fuel <;> simp [digLenAux]

lemma digLenAux_spec (fuel : ℕ) : ∀ n : ℕ, 0 < n → n ≤ fuel →
    10 ^ (digLenAux fuel n - 1) ≤ n ∧ n < 10 ^ digLenAux fuel n := by
  induction fuel with
  | zero => intro n hn hle; omega
  | succ fuel ih =>
    intro n hn hle
    rw [digLenAux, if_neg hn.ne']
    by_cases h10 : n < 10
    · rw [Nat.div_eq_of_lt h10, digLenAux_zero]
      simpa using ⟨hn, h10⟩
    · push_neg at h10
      have hmpos : 0 < n / 10 := Nat.div_pos h10 (by norm_num)
      have hmle : n / 10 ≤ fuel := by
        have := Nat.div_lt_self hn (by norm_num : 1 < 10)
        omega
      obtain ⟨h1, h2⟩ := ih (n / 10) hmpos hmle
      set L := digLenAux fuel (n / 10) with hL
      have hL1 : 1 ≤ L := by
        rcases Nat.eq_zero_or_pos L with h | h
        · rw [h] at h2; simp at h2; omega
        · exact h
      have hpow : (10 : ℕ) ^ L = 10 ^ (L - 1) * 10 := by
        conv_lhs => rw [show L = (L - 1) + 1 by omega]
        rw [pow_succ]
      constructor
      · have step1 : 10 ^ (L - 1) * 10 ≤ (n / 10) * 10 := Nat.mul_le_mul_right 10 h1
        have step2 : (n / 10) * 10 ≤ n := Nat.div_mul_le_self n 10
        calc 10 ^ (L + 1 - 1) = 10 ^ (L - 1) * 10 := by rw [Nat.add_sub_cancel, hpow]
          _ ≤ n := le_trans step1 step2
      · have hstep : n < (n / 10 + 1) * 10 := by omega
        calc n < (n / 10 + 1) * 10 := hstep
          _ ≤ 10 ^ L * 10 := Nat.mul_le_mul_right 10 h2
          _ = 10 ^ (L + 1) := (pow_succ 10 L).symm

lemma digLen_spec (n : ℕ) (hn : 0 < n) :
    10 ^ (digLen n - 1) ≤ n ∧ n < 10 ^ digLen n :=
  digLenAux_spec n n hn le_rfl

lemma digLen_pos (n : ℕ) (hn : 0 < n) : 1 ≤ digLen n := by
  rcases Nat.eq_zero_or_pos (digLen n) with h | h
  · have := (digLen_spec n hn).2
    rw [h] at this; simp at this; omega
  · exact h

/-! Correctness of the adjusted exponent. -/

lemma ten_zpow_pos (e : ℤ) : (0 : ℚ) < (10 : ℚ) ^ e := zpow_pos (by norm_num) e

lemma adjExp_eq_ite (q : ℚ) :
    adjExp q = if (10 : ℚ) ^ ((digLen q.num.natAbs : ℤ) - (digLen q.den : ℤ)) ≤ q
      then (digLen q.num.natAbs : ℤ) - (digLen q.den : ℤ)
      else (digLen q.num.natAbs : ℤ) - (digLen q.den : ℤ) - 1 := rfl

lemma adjExp_spec (q : ℚ) (hq : 0 < q) :
    (10 : ℚ) ^ adjExp q ≤ q ∧ q < (10 : ℚ) ^ (adjExp q + 1) := by
  have hnum : 0 < q.num := Rat.num_pos.mpr hq
  have hapos : 0 < q.num.natAbs := Int.natAbs_pos.mpr hnum.ne'
  have hbpos : 0 < q.den := q.den_pos
  have haZ : (q.num.natAbs : ℤ) = q.num := Int.natAbs_of_nonneg hnum.le
  have haq : (q.num.natAbs : ℚ) = (q.num : ℚ) := by rw [← Int.cast_natCast, haZ]
  have hq_eq : q = (q.num.natAbs : ℚ) / (q.den : ℚ) := by rw [haq, Rat.num_div_den]
  have hbQ : (0 : ℚ) < (q.den : ℚ) := by exact_mod_cast hbpos
  obtain ⟨ha1, ha2⟩ := digLen_spec q.num.natAbs hapos
  obtain ⟨hb1, hb2⟩ := digLen_spec q.den hbpos
  have hda := digLen_pos q.num.natAbs hapos
  have hdb := digLen_pos q.den hbpos
  have hA1 : (10 : ℚ) ^ ((digLen q.num.natAbs : ℤ) - 1) ≤ (q.num.natAbs : ℚ) := by
    rw [show (digLen q.num.natAbs : ℤ) - 1 = ((digLen q.num.natAbs - 1 : ℕ) : ℤ) by omega,
      zpow_natCast]
    exact_mod_cast ha1
  have hA2 : (q.num.natAbs : ℚ) < (10 : ℚ) ^ (digLen q.num.natAbs : ℤ) := by
    rw [zpow_natCast]; exact_mod_cast ha2
  have hB1 : (10 : ℚ) ^ ((digLen q.den : ℤ) - 1) ≤ (q.den : ℚ) := by
    rw [show (digLen q.den : ℤ) - 1 = ((digLen q.den - 1 : ℕ) : ℤ) by omega, zpow_natCast]
    exact_mod_cast hb1
  have hB2 : (q.den : ℚ) < (10 : ℚ) ^ (digLen q.den : ℤ) := by
    rw [zpow_natCast]; exact_mod_cast hb2
  have hU : q < (10 : ℚ) ^ ((digLen q.num.natAbs : ℤ) - (digLen q.den : ℤ) + 1) := by
    conv_lhs => rw [hq_eq]
    rw [div_lt_iff₀ hbQ]
    have e1 : (10 : ℚ) ^ ((digLen q.num.natAbs : ℤ) - (digLen q.den : ℤ) + 1) *
        (10 : ℚ) ^ ((digLen q.den : ℤ) - 1) = (10 : ℚ) ^ (digLen q.num.natAbs : ℤ) := by
      rw [← zpow_add₀ (by norm_num : (10 : ℚ) ≠ 0)]
      congr 1; ring
    calc (q.num.natAbs : ℚ) < (10 : ℚ) ^ (digLen q.num.natAbs : ℤ) := hA2
      _ = (10 : ℚ) ^ ((digLen q.num.natAbs : ℤ) - (digLen q.den : ℤ) + 1) *
          (10 : ℚ) ^ ((digLen q.den : ℤ) - 1) := e1.symm
      _ ≤ (10 : ℚ) ^ ((digLen q.num.natAbs : ℤ) - (digLen q.den : ℤ) + 1) * (q.den : ℚ) :=
          mul_le_mul_of_nonneg_left hB1 (ten_zpow_pos _).le
  have hLded : (10 : ℚ) ^ ((digLen q.num.natAbs : ℤ) - (digLen q.den : ℤ) - 1) < q := by
    conv_rhs => rw [hq_eq]
    rw [lt_div_iff₀ hbQ]
    have e1 : (10 : ℚ) ^ ((digLen q.num.natAbs : ℤ) - (digLen q.den : ℤ) - 1) *
        (10 : ℚ) ^ (digLen q.den : ℤ) = (10 : ℚ) ^ ((digLen q.num.natAbs : ℤ) - 1) := by
      rw [← zpow_add₀ (by norm_num : (10 : ℚ) ≠ 0)]
      congr 1; ring
    calc (10 : ℚ) ^ ((digLen q.num.natAbs : ℤ) - (digLen q.den : ℤ) - 1) * (q.den : ℚ)
        < (10 : ℚ) ^ ((digLen q.num.natAbs : ℤ) - (digLen q.den : ℤ) - 1) *
          (10 : ℚ) ^ (digLen q.den : ℤ) := mul_lt_mul_of_pos_left hB2 (ten_zpow_pos _)
      _ = (10 : ℚ) ^ ((digLen q.num.natAbs : ℤ) - 1) := e1
      _ ≤ (q.num.natAbs : ℚ) := hA1
  rw [adjExp_eq_ite]
  by_cases hc : (10 : ℚ) ^ ((digLen q.num.natAbs : ℤ) - (digLen q.den : ℤ)) ≤ q
  · rw [if_pos hc]
    exact ⟨hc, hU⟩
  · rw [if_neg hc]
    constructor
    · exact hLded.le
    · rw [show (digLen q.num.natAbs : ℤ) - (digLen q.den : ℤ) - 1 + 1 =
        (digLen q.num.natAbs : ℤ) - (digLen q.den : ℤ) by ring]
      exact not_le.mp hc

lemma adjExp_mono (x y : ℚ) (hx : 0 < x) (hxy : x ≤ y) : adjExp x ≤ adjExp y := by
  have hy : 0 < y := hx.trans_le hxy
  have h1 := (adjExp_spec x hx).1
  have h2 := (adjExp_spec y hy).2
  have h3 : (10 : ℚ) ^ adjExp x < (10 : ℚ) ^ (adjExp y + 1) :=
    lt_of_le_of_lt (h1.trans hxy) h2
  have := (zpow_lt_zpow_iff_right₀ (by norm_num : (1 : ℚ) < 10)).mp h3
  omega

/-! Properties of rounding half to even. -/

lemma rne_eq_floor_or (x : ℚ) : rne x = ⌊x⌋ ∨ rne x = ⌊x⌋ + 1 := by
  rw [rne]; split_ifs <;> simp

lemma floor_le_rne (x : ℚ) : ⌊x⌋ ≤ rne x := by
  rcases rne_eq_floor_or x with h | h <;> omega

lemma rne_le_floor_add_one (x : ℚ) : rne x ≤ ⌊x⌋ + 1 := by
  rcases rne_eq_floor_or x with h | h <;> omega

lemma rne_le (x : ℚ) : (rne x : ℚ) ≤ x + 1 / 2 := by
  have hfl := Int.floor_le x
  rw [rne]; split_ifs with h1 h2 h3
  · linarith
  · push_cast; linarith
  · linarith
  · push_cast; linarith [not_lt.mp h1]

lemma rne_ge (x : ℚ) : x - 1 / 2 ≤ (rne x : ℚ) := by
  have hfl := Int.lt_floor_add_one x
  rw [rne]; split_ifs with h1 h2 h3
  · linarith
  · push_cast; linarith
  · linarith [not_lt.mp h2]
  · push_cast; linarith

lemma rne_mono (x y : ℚ) (h : x ≤ y) : rne x ≤ rne y := by
  have hf : ⌊x⌋ ≤ ⌊y⌋ := Int.floor_le_floor h
  rcases eq_or_lt_of_le hf with heq | hlt
  · have h1 := rne_le x
    have h2 := rne_ge y
    have h3 := rne_eq_floor_or x
    have h4 := rne_eq_floor_or y
    rcases h3 with h3 | h3 <;> rcases h4 with h4 | h4 <;> try omega
    -- remaining case: rne x = ⌊x⌋ + 1 and rne y = ⌊y⌋: show it is impossible unless x = y ties out
    rw [rne] at h3 h4 ⊢
    split_ifs at h3 h4 ⊢ with hc1 hc2 hc3 <;> try omega
    all_goals (exfalso; rw [← heq] at *; linarith [not_lt.mp hc1])
  · have h1 : rne x ≤ ⌊x⌋ + 1 := rne_le_floor_add_one x
    have h2 : ⌊y⌋ ≤ rne y := floor_le_rne y
    omega

lemma rne_nonneg (x : ℚ) (hx : 0 ≤ x) : 0 ≤ rne x := by
  have h := floor_le_rne x
  have := Int.floor_nonneg.mpr hx
  omega

/-! Properties of rounding to 28 significant digits. -/

lemma ten_pow_sub_cancel (e : ℤ) : (10 : ℚ) ^ (27 - e) * (10 : ℚ) ^ (e - 27) = 1 := by
  rw [← zpow_add₀ (by norm_num : (10 : ℚ) ≠ 0)]
  norm_num

lemma decRound28_of_pos (q : ℚ) (hq : 0 < q) :
    decRound28 q = (rne (q * (10 : ℚ) ^ (27 - adjExp q)) : ℚ) * (10 : ℚ) ^ (adjExp q - 27) := by
  rw [decRound28, if_neg (not_le.mpr hq)]

lemma decRound28_le (q : ℚ) (hq : 0 < q) :
    decRound28 q ≤ q + (10 : ℚ) ^ (adjExp q - 27) / 2 := by
  rw [decRound28_of_pos q hq]
  have h1 := rne_le (q * (10 : ℚ) ^ (27 - adjExp q))
  have h2 := mul_le_mul_of_nonneg_right h1 (ten_zpow_pos (adjExp q - 27)).le
  calc (rne (q * (10 : ℚ) ^ (27 - adjExp q)) : ℚ) * (10 : ℚ) ^ (adjExp q - 27)
      ≤ (q * (10 : ℚ) ^ (27 - adjExp q) + 1 / 2) * (10 : ℚ) ^ (adjExp q - 27) := h2
    _ = q * ((10 : ℚ) ^ (27 - adjExp q) * (10 : ℚ) ^ (adjExp q - 27)) +
        (10 : ℚ) ^ (adjExp q - 27) / 2 := by ring
    _ = q + (10 : ℚ) ^ (adjExp q - 27) / 2 := by rw [ten_pow_sub_cancel]; ring

lemma decRound28_ge (q : ℚ) (hq : 0 < q) :
    q - (10 : ℚ) ^ (adjExp q - 27) / 2 ≤ decRound28 q := by
  rw [decRound28_of_pos q hq]
  have h1 := rne_ge (q * (10 : ℚ) ^ (27 - adjExp q))
  have h2 := mul_le_mul_of_nonneg_right h1 (ten_zpow_pos (adjExp q - 27)).le
  calc q - (10 : ℚ) ^ (adjExp q - 27) / 2
      = (q * (10 : ℚ) ^ (27 - adjExp q) - 1 / 2) * (10 : ℚ) ^ (adjExp q - 27) := by
        rw [sub_mul, mul_assoc, ten_pow_sub_cancel]; ring
    _ ≤ (rne (q * (10 : ℚ) ^ (27 - adjExp q)) : ℚ) * (10 : ℚ) ^ (adjExp q - 27) := h2

lemma ulp_le_eps (q : ℚ) (hq : 0 < q) :
    (10 : ℚ) ^ (adjExp q - 27) / 2 ≤ q * (1 / (2 * 10 ^ 27)) := by
  have h1 := (adjExp_spec q hq).1
  have h2 : (10 : ℚ) ^ (adjExp q - 27) = (10 : ℚ) ^ adjExp q * (10 : ℚ) ^ (-27 : ℤ) := by
    rw [← zpow_add₀ (by norm_num : (10 : ℚ) ≠ 0)]
    congr 1
  have h3 : (10 : ℚ) ^ (-27 : ℤ) = ((10 : ℚ) ^ (27 : ℕ))⁻¹ := by
    rw [zpow_neg]; norm_num
  have h4 : (10 : ℚ) ^ (adjExp q - 27) ≤ q * ((10 : ℚ) ^ (27 : ℕ))⁻¹ := by
    rw [h2, h3]
    exact mul_le_mul_of_nonneg_right h1 (by positivity)
  calc (10 : ℚ) ^ (adjExp q - 27) / 2 ≤ q * ((10 : ℚ) ^ (27 : ℕ))⁻¹ / 2 := by linarith
    _ = q * (1 / (2 * 10 ^ 27)) := by ring

lemma decRound28_le_mul (q : ℚ) (hq : 0 < q) :
    decRound28 q ≤ q * (1 + 1 / (2 * 10 ^ 27)) := by
  have := decRound28_le q hq
  have := ulp_le_eps q hq
  nlinarith [hq.le]

lemma decRound28_ge_mul (q : ℚ) (hq : 0 < q) :
    q * (1 - 1 / (2 * 10 ^ 27)) ≤ decRound28 q := by
  have := decRound28_ge q hq
  have := ulp_le_eps q hq
  nlinarith [hq.le]

lemma decRound28_pos (q : ℚ) (hq : 0 < q) : 0 < decRound28 q := by
  have h := decRound28_ge_mul q hq
  have h2 : (0 : ℚ) < q * (1 - 1 / (2 * 10 ^ 27)) := by
    apply mul_pos hq
    norm_num
  linarith

lemma decRound28_nonneg (q : ℚ) : 0 ≤ decRound28 q := by
  rcases le_or_lt q 0 with h | h
  · rw [decRound28, if_pos h]
  · exact (decRound28_pos q h).le

/-! Unfolding lemmas for the two calculator methods. -/

lemma pyInt_eq_floor (q : ℚ) (hq : 0 ≤ q) : pyInt q = ⌊q⌋ := by
  rw [pyInt, if_neg (not_lt.mpr hq)]

lemma validate_inputs_none (amount ni : ℚ) (ha : 0 < amount) (hni : 0 < ni) :
    validate_inputs amount ni = none := by
  rw [validate_inputs, if_neg (not_le.mpr ha), if_neg (not_le.mpr hni)]

lemma calculate_atoken_eq_ok (amount ni : ℚ) (cfg : TokenConfig)
    (ha : 0 < amount) (hni : 0 < ni) :
    calculate_atoken_for_token amount ni cfg =
      .ok (pyInt (receiptQuot amount ni cfg.decimals)) := by
  rw [calculate_atoken_for_token, validate_inputs_none amount ni ha hni]
  rfl

lemma calculate_token_eq_ok (amount ni : ℚ) (cfg : TokenConfig)
    (ha : 0 < amount) (hni : 0 < ni) :
    calculate_token_for_atoken amount ni cfg =
      .ok (pyInt (baseQuot amount ni cfg.decimals)) := by
  rw [calculate_token_for_atoken, validate_inputs_none amount ni ha hni]
  rfl

lemma calculate_atoken_err_amount (amount ni : ℚ) (cfg : TokenConfig) (ha : amount ≤ 0) :
    calculate_atoken_for_token amount ni cfg = .error "Amount must be a positive number" := by
  rw [calculate_atoken_for_token, validate_inputs, if_pos ha]

lemma calculate_token_err_amount (amount ni : ℚ) (cfg : TokenConfig) (ha : amount ≤ 0) :
    calculate_token_for_atoken amount ni cfg = .error "Amount must be a positive number" := by
  rw [calculate_token_for_atoken, validate_inputs, if_pos ha]

lemma calculate_atoken_err_income (amount ni : ℚ) (cfg : TokenConfig)
    (ha : 0 < amount) (hni : ni ≤ 0) :
    calculate_atoken_for_token amount ni cfg =
      .error "Normalized income must be a positive number" := by
  rw [calculate_atoken_for_token, validate_inputs, if_neg (not_le.mpr ha), if_pos hni]

lemma calculate_token_err_income (amount ni : ℚ) (cfg : TokenConfig)
    (ha : 0 < amount) (hni : ni ≤ 0) :
    calculate_token_for_atoken amount ni cfg =
      .error "Normalized income must be a positive number" := by
  rw [calculate_token_for_atoken, validate_inputs, if_neg (not_le.mpr ha), if_pos hni]

lemma RAY_pos : (0 : ℚ) < RAY := by rw [RAY]; positivity

/-! Relative-error bounds for the whole multiply-multiply-divide chain, each
operation rounded to 28 significant digits. -/

lemma decChain_pos (x y z u v : ℚ) (hx : 0 < x) (hy : 0 < y) (hz : 0 < z)
    (hu : 0 < u) (hv : 0 < v) :
    0 < decDiv (decMul (decMul x y) z) (decMul u v) := by
  have hm1 : 0 < decMul x y := decRound28_pos _ (mul_pos hx hy)
  have hm2 : 0 < decMul (decMul x y) z := decRound28_pos _ (mul_pos hm1 hz)
  have hd : 0 < decMul u v := decRound28_pos _ (mul_pos hu hv)
  exact decRound28_pos _ (div_pos hm2 hd)

lemma decChain_upper (x y z u v : ℚ) (hx : 0 < x) (hy : 0 < y) (hz : 0 < z)
    (hu : 0 < u) (hv : 0 < v) :
    decDiv (decMul (decMul x y) z) (decMul u v) ≤ x * y * z / (u * v) * (1 + 1 / 10 ^ 26) := by
  have hc : (0 : ℚ) < 1 - 1 / (2 * 10 ^ 27) := by norm_num
  have hc' : (0 : ℚ) < 1 + 1 / (2 * 10 ^ 27) := by norm_num
  have hm1pos : 0 < decMul x y := decRound28_pos _ (mul_pos hx hy)
  have hm1 : decMul x y ≤ x * y * (1 + 1 / (2 * 10 ^ 27)) := decRound28_le_mul _ (mul_pos hx hy)
  have hm2pos : 0 < decMul (decMul x y) z := decRound28_pos _ (mul_pos hm1pos hz)
  have hm2 : decMul (decMul x y) z ≤ x * y * z * (1 + 1 / (2 * 10 ^ 27)) ^ 2 := by
    have h1 : decMul (decMul x y) z ≤ decMul x y * z * (1 + 1 / (2 * 10 ^ 27)) :=
      decRound28_le_mul _ (mul_pos hm1pos hz)
    have h2 : decMul x y * z ≤ x * y * (1 + 1 / (2 * 10 ^ 27)) * z :=
      mul_le_mul_of_nonneg_right hm1 hz.le
    calc decMul (decMul x y) z ≤ decMul x y * z * (1 + 1 / (2 * 10 ^ 27)) := h1
      _ ≤ x * y * (1 + 1 / (2 * 10 ^ 27)) * z * (1 + 1 / (2 * 10 ^ 27)) :=
          mul_le_mul_of_nonneg_right h2 hc'.le
      _ = x * y * z * (1 + 1 / (2 * 10 ^ 27)) ^ 2 := by ring
  have hdpos : 0 < decMul u v := decRound28_pos _ (mul_pos hu hv)
  have hd : u * v * (1 - 1 / (2 * 10 ^ 27)) ≤ decMul u v := decRound28_ge_mul _ (mul_pos hu hv)
  have hdlow : (0 : ℚ) < u * v * (1 - 1 / (2 * 10 ^ 27)) := mul_pos (mul_pos hu hv) hc
  have hq : decDiv (decMul (decMul x y) z) (decMul u v) ≤
      decMul (decMul x y) z / decMul u v * (1 + 1 / (2 * 10 ^ 27)) :=
    decRound28_le_mul _ (div_pos hm2pos hdpos)
  have hdiv : decMul (decMul x y) z / decMul u v ≤
      x * y * z * (1 + 1 / (2 * 10 ^ 27)) ^ 2 / (u * v * (1 - 1 / (2 * 10 ^ 27))) :=
    div_le_div₀ (by positivity) hm2 hdlow hd
  have huv : (u * v) ≠ 0 := (mul_pos hu hv).ne'
  have heq : x * y * z * (1 + 1 / (2 * 10 ^ 27)) ^ 2 / (u * v * (1 - 1 / (2 * 10 ^ 27))) *
      (1 + 1 / (2 * 10 ^ 27)) =
      x * y * z / (u * v) * ((1 + 1 / (2 * 10 ^ 27)) ^ 3 / (1 - 1 / (2 * 10 ^ 27))) := by
    field_simp
    ring
  have hkey : ((1 : ℚ) + 1 / (2 * 10 ^ 27)) ^ 3 / (1 - 1 / (2 * 10 ^ 27)) ≤ 1 + 1 / 10 ^ 26 := by
    rw [div_le_iff₀ hc]
    norm_num
  have hfrac : (0 : ℚ) ≤ x * y * z / (u * v) := by positivity
  calc decDiv (decMul (decMul x y) z) (decMul u v)
      ≤ decMul (decMul x y) z / decMul u v * (1 + 1 / (2 * 10 ^ 27)) := hq
    _ ≤ x * y * z * (1 + 1 / (2 * 10 ^ 27)) ^ 2 / (u * v * (1 - 1 / (2 * 10 ^ 27))) *
        (1 + 1 / (2 * 10 ^ 27)) := mul_le_mul_of_nonneg_right hdiv hc'.le
    _ = x * y * z / (u * v) * ((1 + 1 / (2 * 10 ^ 27)) ^ 3 / (1 - 1 / (2 * 10 ^ 27))) := heq
    _ ≤ x * y * z / (u * v) * (1 + 1 / 10 ^ 26) := mul_le_mul_of_nonneg_left hkey hfrac

lemma decChain_lower (x y z u v : ℚ) (hx : 0 < x) (hy : 0 < y) (hz : 0 < z)
    (hu : 0 < u) (hv : 0 < v) :
    x * y * z / (u * v) * (1 - 1 / 10 ^ 26) ≤ decDiv (decMul (decMul x y) z) (decMul u v) := by
  have hc : (0 : ℚ) < 1 - 1 / (2 * 10 ^ 27) := by norm_num
  have hc' : (0 : ℚ) < 1 + 1 / (2 * 10 ^ 27) := by norm_num
  have hm1pos : 0 < decMul x y := decRound28_pos _ (mul_pos hx hy)
  have hm1 : x * y * (1 - 1 / (2 * 10 ^ 27)) ≤ decMul x y := decRound28_ge_mul _ (mul_pos hx hy)
  have hm2pos : 0 < decMul (decMul x y) z := decRound28_pos _ (mul_pos hm1pos hz)
  have hm2 : x * y * z * (1 - 1 / (2 * 10 ^ 27)) ^ 2 ≤ decMul (decMul x y) z := by
    have h1 : decMul x y * z * (1 - 1 / (2 * 10 ^ 27)) ≤ decMul (decMul x y) z :=
      decRound28_ge_mul _ (mul_pos hm1pos hz)
    have h2 : x * y * (1 - 1 / (2 * 10 ^ 27)) * z ≤ decMul x y * z :=
      mul_le_mul_of_nonneg_right hm1 hz.le
    calc x * y * z * (1 - 1 / (2 * 10 ^ 27)) ^ 2
        = x * y * (1 - 1 / (2 * 10 ^ 27)) * z * (1 - 1 / (2 * 10 ^ 27)) := by ring
      _ ≤ decMul x y * z * (1 - 1 / (2 * 10 ^ 27)) := mul_le_mul_of_nonneg_right h2 hc.le
      _ ≤ decMul (decMul x y) z := h1
  have hdpos : 0 < decMul u v := decRound28_pos _ (mul_pos hu hv)
  have hd : decMul u v ≤ u * v * (1 + 1 / (2 * 10 ^ 27)) := decRound28_le_mul _ (mul_pos hu hv)
  have hq : decMul (decMul x y) z / decMul u v * (1 - 1 / (2 * 10 ^ 27)) ≤
      decDiv (decMul (decMul x y) z) (decMul u v) :=
    decRound28_ge_mul _ (div_pos hm2pos hdpos)
  have hnum_nonneg : (0 : ℚ) ≤ x * y * z * (1 - 1 / (2 * 10 ^ 27)) ^ 2 := by positivity
  have hdiv : x * y * z * (1 - 1 / (2 * 10 ^ 27)) ^ 2 / (u * v * (1 + 1 / (2 * 10 ^ 27))) ≤
      decMul (decMul x y) z / decMul u v :=
    div_le_div₀ (by positivity) hm2 hdpos hd
  have huv : (u * v) ≠ 0 := (mul_pos hu hv).ne'
  have heq : x * y * z * (1 - 1 / (2 * 10 ^ 27)) ^ 2 / (u * v * (1 + 1 / (2 * 10 ^ 27))) *
      (1 - 1 / (2 * 10 ^ 27)) =
      x * y * z / (u * v) * ((1 - 1 / (2 * 10 ^ 27)) ^ 3 / (1 + 1 / (2 * 10 ^ 27))) := by
    field_simp
    ring
  have hkey : (1 : ℚ) - 1 / 10 ^ 26 ≤ (1 - 1 / (2 * 10 ^ 27)) ^ 3 / (1 + 1 / (2 * 10 ^ 27)) := by
    rw [le_div_iff₀ hc']
    norm_num
  have hfrac : (0 : ℚ) ≤ x * y * z / (u * v) := by positivity
  calc x * y * z / (u * v) * (1 - 1 / 10 ^ 26)
      ≤ x * y * z / (u * v) * ((1 - 1 / (2 * 10 ^ 27)) ^ 3 / (1 + 1 / (2 * 10 ^ 27))) :=
        mul_le_mul_of_nonneg_left hkey hfrac
    _ = x * y * z * (1 - 1 / (2 * 10 ^ 27)) ^ 2 / (u * v * (1 + 1 / (2 * 10 ^ 27))) *
        (1 - 1 / (2 * 10 ^ 27)) := heq.symm
    _ ≤ decMul (decMul x y) z / decMul u v * (1 - 1 / (2 * 10 ^ 27)) :=
        mul_le_mul_of_nonneg_right hdiv hc.le
    _ ≤ decDiv (decMul (decMul x y) z) (decMul u v) := hq

/-! Monotonicity of 28-digit rounding, hence of the conversion pipelines. -/

lemma decRound28_le_pow (q : ℚ) (hq : 0 < q) :
    decRound28 q ≤ (10 : ℚ) ^ (adjExp q + 1) := by
  rw [decRound28_of_pos q hq]
  have hub := (adjExp_spec q hq).2
  have hx : q * (10 : ℚ) ^ (27 - adjExp q) < (10 : ℚ) ^ (28 : ℤ) := by
    calc q * (10 : ℚ) ^ (27 - adjExp q)
        < (10 : ℚ) ^ (adjExp q + 1) * (10 : ℚ) ^ (27 - adjExp q) :=
          mul_lt_mul_of_pos_right hub (ten_zpow_pos _)
      _ = (10 : ℚ) ^ (28 : ℤ) := by
          rw [← zpow_add₀ (by norm_num : (10 : ℚ) ≠ 0)]
          congr 1; ring
  have hfloor : ⌊q * (10 : ℚ) ^ (27 - adjExp q)⌋ < (10 : ℤ) ^ (28 : ℕ) := by
    rw [Int.floor_lt]
    calc q * (10 : ℚ) ^ (27 - adjExp q) < (10 : ℚ) ^ (28 : ℤ) := hx
      _ = (((10 : ℤ) ^ (28 : ℕ) : ℤ) : ℚ) := by push_cast; norm_num
  have hrne : rne (q * (10 : ℚ) ^ (27 - adjExp q)) ≤ (10 : ℤ) ^ (28 : ℕ) := by
    have := rne_le_floor_add_one (q * (10 : ℚ) ^ (27 - adjExp q))
    omega
  calc (rne (q * (10 : ℚ) ^ (27 - adjExp q)) : ℚ) * (10 : ℚ) ^ (adjExp q - 27)
      ≤ (((10 : ℤ) ^ (28 : ℕ) : ℤ) : ℚ) * (10 : ℚ) ^ (adjExp q - 27) :=
        mul_le_mul_of_nonneg_right (by exact_mod_cast hrne) (ten_zpow_pos _).le
    _ = (10 : ℚ) ^ (28 : ℤ) * (10 : ℚ) ^ (adjExp q - 27) := by push_cast; norm_num
    _ = (10 : ℚ) ^ (adjExp q + 1) := by
        rw [← zpow_add₀ (by norm_num : (10 : ℚ) ≠ 0)]
        congr 1; ring

lemma pow_le_decRound28 (q : ℚ) (hq : 0 < q) :
    (10 : ℚ) ^ adjExp q ≤ decRound28 q := by
  rw [decRound28_of_pos q hq]
  have hlb := (adjExp_spec q hq).1
  have hx : (10 : ℚ) ^ (27 : ℤ) ≤ q * (10 : ℚ) ^ (27 - adjExp q) := by
    calc (10 : ℚ) ^ (27 : ℤ)
        = (10 : ℚ) ^ adjExp q * (10 : ℚ) ^ (27 - adjExp q) := by
          rw [← zpow_add₀ (by norm_num : (10 : ℚ) ≠ 0)]
          congr 1; ring
      _ ≤ q * (10 : ℚ) ^ (27 - adjExp q) := mul_le_mul_of_nonneg_right hlb (ten_zpow_pos _).le
  have hfloor : ((10 : ℤ) ^ (27 : ℕ) : ℤ) ≤ ⌊q * (10 : ℚ) ^ (27 - adjExp q)⌋ := by
    rw [Int.le_floor]
    calc (((10 : ℤ) ^ (27 : ℕ) : ℤ) : ℚ) = (10 : ℚ) ^ (27 : ℤ) := by push_cast; norm_num
      _ ≤ q * (10 : ℚ) ^ (27 - adjExp q) := hx
  have hrne : ((10 : ℤ) ^ (27 : ℕ) : ℤ) ≤ rne (q * (10 : ℚ) ^ (27 - adjExp q)) := by
    have := floor_le_rne (q * (10 : ℚ) ^ (27 - adjExp q))
    omega
  calc (10 : ℚ) ^ adjExp q
      = (10 : ℚ) ^ (27 : ℤ) * (10 : ℚ) ^ (adjExp q - 27) := by
        rw [← zpow_add₀ (by norm_num : (10 : ℚ) ≠ 0)]
        congr 1; ring
    _ = (((10 : ℤ) ^ (27 : ℕ) : ℤ) : ℚ) * (10 : ℚ) ^ (adjExp q - 27) := by push_cast; norm_num
    _ ≤ (rne (q * (10 : ℚ) ^ (27 - adjExp q)) : ℚ) * (10 : ℚ) ^ (adjExp q - 27) :=
        mul_le_mul_of_nonneg_right (by exact_mod_cast hrne) (ten_zpow_pos _).le

lemma decRound28_mono (x y : ℚ) (hx : 0 < x) (hxy : x ≤ y) :
    decRound28 x ≤ decRound28 y := by
  have hy : 0 < y := hx.trans_le hxy
  rcases eq_or_lt_of_le (adjExp_mono x y hx hxy) with heq | hlt
  · rw [decRound28_of_pos x hx, decRound28_of_pos y hy, heq]
    have hmul : x * (10 : ℚ) ^ (27 - adjExp y) ≤ y * (10 : ℚ) ^ (27 - adjExp y) :=
      mul_le_mul_of_nonneg_right hxy (ten_zpow_pos _).le
    have := rne_mono _ _ hmul
    exact mul_le_mul_of_nonneg_right (by exact_mod_cast this) (ten_zpow_pos _).le
  · calc decRound28 x ≤ (10 : ℚ) ^ (adjExp x + 1) := decRound28_le_pow x hx
      _ ≤ (10 : ℚ) ^ adjExp y :=
        zpow_le_zpow_right₀ (by norm_num : (1 : ℚ) ≤ 10) (by omega)
      _ ≤ decRound28 y := pow_le_decRound28 y hy

lemma decChain_mono (x1 x2 y z u v : ℚ) (hx1 : 0 < x1) (hx12 : x1 ≤ x2) (hy : 0 < y)
    (hz : 0 < z) (hu : 0 < u) (hv : 0 < v) :
    decDiv (decMul (decMul x1 y) z) (decMul u v) ≤
      decDiv (decMul (decMul x2 y) z) (decMul u v) := by
  have hx2 : 0 < x2 := hx1.trans_le hx12
  have hm1pos : 0 < decMul x1 y := decRound28_pos _ (mul_pos hx1 hy)
  have hm1 : decMul x1 y ≤ decMul x2 y :=
    decRound28_mono _ _ (mul_pos hx1 hy) (mul_le_mul_of_nonneg_right hx12 hy.le)
  have hm2pos : 0 < decMul (decMul x1 y) z := decRound28_pos _ (mul_pos hm1pos hz)
  have hm2 : decMul (decMul x1 y) z ≤ decMul (decMul x2 y) z :=
    decRound28_mono _ _ (mul_pos hm1pos hz) (mul_le_mul_of_nonneg_right hm1 hz.le)
  have hdpos : 0 < decMul u v := decRound28_pos _ (mul_pos hu hv)
  have hdiv : decMul (decMul x1 y) z / decMul u v ≤ decMul (decMul x2 y) z / decMul u v := by
    gcongr
  exact decRound28_mono _ _ (div_pos hm2pos hdpos) hdiv

/-! Instantiation of the chain lemmas to the two conversion pipelines. -/

lemma receiptQuot_pos (a ni : ℚ) (d : ℕ) (ha : 0 < a) (hni : 0 < ni) :
    0 < receiptQuot a ni d :=
  decChain_pos a RAY RAY ((10 : ℚ) ^ d) ni ha RAY_pos RAY_pos (by positivity) hni

lemma baseQuot_pos (a ni : ℚ) (d : ℕ) (ha : 0 < a) (hni : 0 < ni) :
    0 < baseQuot a ni d :=
  decChain_pos a ni ((10 : ℚ) ^ d) RAY RAY ha hni (by positivity) RAY_pos RAY_pos

lemma exactReceipt_eq_chain (a ni : ℚ) (d : ℕ) :
    a * RAY * RAY / ((10 : ℚ) ^ d * ni) = exactReceipt a ni d := by
  rw [exactReceipt]; ring

lemma exactBase_eq_chain (a ni : ℚ) (d : ℕ) :
    a * ni * (10 : ℚ) ^ d / (RAY * RAY) = exactBase a ni d := by
  rw [exactBase]; ring

lemma receiptQuot_upper (a ni : ℚ) (d : ℕ) (ha : 0 < a) (hni : 0 < ni) :
    receiptQuot a ni d ≤ exactReceipt a ni d * (1 + 1 / 10 ^ 26) := by
  have h := decChain_upper a RAY RAY ((10 : ℚ) ^ d) ni ha RAY_pos RAY_pos (by positivity) hni
  rw [receiptQuot, ← exactReceipt_eq_chain]
  exact h

lemma receiptQuot_lower (a ni : ℚ) (d : ℕ) (ha : 0 < a) (hni : 0 < ni) :
    exactReceipt a ni d * (1 - 1 / 10 ^ 26) ≤ receiptQuot a ni d := by
  have h := decChain_lower a RAY RAY ((10 : ℚ) ^ d) ni ha RAY_pos RAY_pos (by positivity) hni
  rw [receiptQuot, ← exactReceipt_eq_chain]
  exact h

lemma baseQuot_upper (a ni : ℚ) (d : ℕ) (ha : 0 < a) (hni : 0 < ni) :
    baseQuot a ni d ≤ exactBase a ni d * (1 + 1 / 10 ^ 26) := by
  have h := decChain_upper a ni ((10 : ℚ) ^ d) RAY RAY ha hni (by positivity) RAY_pos RAY_pos
  rw [baseQuot, ← exactBase_eq_chain]
  exact h

lemma baseQuot_lower (a ni : ℚ) (d : ℕ) (ha : 0 < a) (hni : 0 < ni) :
    exactBase a ni d * (1 - 1 / 10 ^ 26) ≤ baseQuot a ni d := by
  have h := decChain_lower a ni ((10 : ℚ) ^ d) RAY RAY ha hni (by positivity) RAY_pos RAY_pos
  rw [baseQuot, ← exactBase_eq_chain]
  exact h

lemma receiptQuot_mono (a1 a2 ni : ℚ) (d : ℕ) (h1 : 0 < a1) (h12 : a1 ≤ a2) (hni : 0 < ni) :
    receiptQuot a1 ni d ≤ receiptQuot a2 ni d := by
  have h := decChain_mono a1 a2 RAY RAY ((10 : ℚ) ^ d) ni h1 h12 RAY_pos RAY_pos
    (by positivity) hni
  rw [receiptQuot, receiptQuot]
  exact h

lemma calculate_atoken_ok_elim (amount ni : ℚ) (cfg : TokenConfig) (r : ℤ)
    (h : calculate_atoken_for_token amount ni cfg = .ok r) :
    0 < amount ∧ 0 < ni ∧ r = pyInt (receiptQuot amount ni cfg.decimals) := by
  by_cases ha : amount ≤ 0
  · rw [calculate_atoken_err_amount amount ni cfg ha] at h
    exact absurd h (by simp)
  · push_neg at ha
    by_cases hni : ni ≤ 0
    · rw [calculate_atoken_err_income amount ni cfg ha hni] at h
      exact absurd h (by simp)
    · push_neg at hni
      rw [calculate_atoken_eq_ok amount ni cfg ha hni] at h
      exact ⟨ha, hni, (Except.ok.inj h).symm⟩

lemma calculate_token_ok_elim (amount ni : ℚ) (cfg : TokenConfig) (r : ℤ)
    (h : calculate_token_for_atoken amount ni cfg = .ok r) :
    0 < amount ∧ 0 < ni ∧ r = pyInt (baseQuot amount ni cfg.decimals) := by
  by_cases ha : amount ≤ 0
  · rw [calculate_token_err_amount amount ni cfg ha] at h
    exact absurd h (by simp)
  · push_neg at ha
    by_cases hni : ni ≤ 0
    · rw [calculate_token_err_income amount ni cfg ha hni] at h
      exact absurd h (by simp)
    · push_neg at hni
      rw [calculate_token_eq_ok amount ni cfg ha hni] at h
      exact ⟨ha, hni, (Except.ok.inj h).symm⟩

/-! Claim theorems. -/

/-- Claim C1, counterexample: on `baseAmount = 1`, `normalizedIncome = 3`,
`decimals = 6` (the USDC configuration) `calculate_atoken_for_token` does not
return the exact `floor(baseAmount * RAY^2 / (10^decimals * normalizedIncome))`:
the exact floor is 48 threes, but the 28-significant-digit context truncates
the quotient to 28 threes followed by 20 zeros. -/
theorem claim1_counterexample :
    calculate_atoken_for_token ((1 : ℤ) : ℚ) ((3 : ℤ) : ℚ) usdcConfig =
      .ok 333333333333333333333333333300000000000000000000 ∧
    specReceiptFloor 1 3 usdcConfig.decimals = 333333333333333333333333333333333333333333333333 ∧
    (333333333333333333333333333300000000000000000000 : ℤ) ≠
      333333333333333333333333333333333333333333333333 := by
  exact ⟨by decide, by decide, by decide⟩

/-- Claim C1 (amended): for positive integer `baseAmount` and
`normalizedIncome` and any `decimals ≤ 18`, `calculate_atoken_for_token`
returns the truncation of `baseAmount * RAY^2 / (10^decimals *
normalizedIncome)` computed in Python's default `Decimal` context (28
significant digits, half-even); the result is not always the exact
unbounded-precision floor, but it always satisfies
`exact * (1 - 10^-26) - 1 < result ≤ exact * (1 + 10^-26)`. -/
theorem claim1_theorem (a ni : ℤ) (cfg : TokenConfig) (ha : 0 < a) (hni : 0 < ni)
    (_hd : cfg.decimals ≤ 18) :
    ∃ r : ℤ, calculate_atoken_for_token (a : ℚ) (ni : ℚ) cfg = .ok r ∧
      (r : ℚ) ≤ exactReceipt (a : ℚ) (ni : ℚ) cfg.decimals * (1 + 1 / 10 ^ 26) ∧
      exactReceipt (a : ℚ) (ni : ℚ) cfg.decimals * (1 - 1 / 10 ^ 26) - 1 < (r : ℚ) := by
  have haQ : (0 : ℚ) < (a : ℚ) := by exact_mod_cast ha
  have hniQ : (0 : ℚ) < (ni : ℚ) := by exact_mod_cast hni
  have hqpos := receiptQuot_pos (a : ℚ) (ni : ℚ) cfg.decimals haQ hniQ
  refine ⟨pyInt (receiptQuot (a : ℚ) (ni : ℚ) cfg.decimals),
    calculate_atoken_eq_ok _ _ _ haQ hniQ, ?_, ?_⟩
  · rw [pyInt_eq_floor _ hqpos.le]
    exact (Int.floor_le _).trans (receiptQuot_upper _ _ _ haQ hniQ)
  · rw [pyInt_eq_floor _ hqpos.le]
    have h1 := receiptQuot_lower (a : ℚ) (ni : ℚ) cfg.decimals haQ hniQ
    have h2 := Int.sub_one_lt_floor (receiptQuot (a : ℚ) (ni : ℚ) cfg.decimals)
    linarith

/-- Witness for claim C1's theorem at `baseAmount = 1`, `normalizedIncome = 1`,
the USDC configuration. -/
theorem claim1_witness :
    ∃ r : ℤ, calculate_atoken_for_token ((1 : ℤ) : ℚ) ((1 : ℤ) : ℚ) usdcConfig = .ok r ∧
      (r : ℚ) ≤ exactReceipt ((1 : ℤ) : ℚ) ((1 : ℤ) : ℚ) usdcConfig.decimals * (1 + 1 / 10 ^ 26) ∧
      exactReceipt ((1 : ℤ) : ℚ) ((1 : ℤ) : ℚ) usdcConfig.decimals * (1 - 1 / 10 ^ 26) - 1 <
        (r : ℚ) :=
  claim1_theorem 1 1 usdcConfig (by norm_num) (by norm_num) (by decide)

/-- Claim C3, counterexample: on `receiptAmount = 1`,
`normalizedIncome = 10^54 - 1`, `decimals = 6` (the USDC configuration)
`calculate_token_for_atoken` returns `1000000` although the exact
`floor(receiptAmount * normalizedIncome * 10^decimals / RAY^2)` is `999999`:
the 28-digit context rounds the 54-nines product up to `10^54`, so the result
is not floored (here it even exceeds the exact value). -/
theorem claim3_counterexample :
    calculate_token_for_atoken ((1 : ℤ) : ℚ)
      ((999999999999999999999999999999999999999999999999999999 : ℤ) : ℚ) usdcConfig =
      .ok 1000000 ∧
    specBaseFloor 1 999999999999999999999999999999999999999999999999999999 usdcConfig.decimals =
      999999 ∧
    (1000000 : ℤ) ≠ 999999 := by
  exact ⟨by decide, by decide, by decide⟩

/-- Claim C3 (amended): for positive integer `receiptAmount` and
`normalizedIncome` and any `decimals ≤ 18`, `calculate_token_for_atoken`
returns the truncation of `receiptAmount * normalizedIncome * 10^decimals /
RAY^2` computed in Python's default `Decimal` context (28 significant digits,
half-even); the result agrees with the exact floored value only up to a
relative error of `10^-26` (and can exceed the exact floor), not exactly:
`exact * (1 - 10^-26) - 1 < result ≤ exact * (1 + 10^-26)`. -/
theorem claim3_theorem (a ni : ℤ) (cfg : TokenConfig) (ha : 0 < a) (hni : 0 < ni)
    (_hd : cfg.decimals ≤ 18) :
    ∃ r : ℤ, calculate_token_for_atoken (a : ℚ) (ni : ℚ) cfg = .ok r ∧
      (r : ℚ) ≤ exactBase (a : ℚ) (ni : ℚ) cfg.decimals * (1 + 1 / 10 ^ 26) ∧
      exactBase (a : ℚ) (ni : ℚ) cfg.decimals * (1 - 1 / 10 ^ 26) - 1 < (r : ℚ) := by
  have haQ : (0 : ℚ) < (a : ℚ) := by exact_mod_cast ha
  have hniQ : (0 : ℚ) < (ni : ℚ) := by exact_mod_cast hni
  have hqpos := baseQuot_pos (a : ℚ) (ni : ℚ) cfg.decimals haQ hniQ
  refine ⟨pyInt (baseQuot (a : ℚ) (ni : ℚ) cfg.decimals),
    calculate_token_eq_ok _ _ _ haQ hniQ, ?_, ?_⟩
  · rw [pyInt_eq_floor _ hqpos.le]
    exact (Int.floor_le _).trans (baseQuot_upper _ _ _ haQ hniQ)
  · rw [pyInt_eq_floor _ hqpos.le]
    have h1 := baseQuot_lower (a : ℚ) (ni : ℚ) cfg.decimals haQ hniQ
    have h2 := Int.sub_one_lt_floor (baseQuot (a : ℚ) (ni : ℚ) cfg.decimals)
    linarith

/-- Witness for claim C3's theorem at `receiptAmount = 1`,
`normalizedIncome = 1`, the USDC configuration. -/
theorem claim3_witness :
    ∃ r : ℤ, calculate_token_for_atoken ((1 : ℤ) : ℚ) ((1 : ℤ) : ℚ) usdcConfig = .ok r ∧
      (r : ℚ) ≤ exactBase ((1 : ℤ) : ℚ) ((1 : ℤ) : ℚ) usdcConfig.decimals * (1 + 1 / 10 ^ 26) ∧
      exactBase ((1 : ℤ) : ℚ) ((1 : ℤ) : ℚ) usdcConfig.decimals * (1 - 1 / 10 ^ 26) - 1 <
        (r : ℚ) :=
  claim3_theorem 1 1 usdcConfig (by norm_num) (by norm_num) (by decide)

/-- Claim C4, counterexample: with `decimals = 18` (the DAI configuration),
`normalizedIncome = RAY = 10^27` and `baseAmount = 10^18`,
`calculate_atoken_for_token` does not return `10^18`. -/
theorem claim4_counterexample :
    calculate_atoken_for_token ((10 : ℚ) ^ 18) ((10 : ℚ) ^ 27) daiConfig ≠ .ok (10 ^ 18) := by
  decide

/-- Claim C4 (amended): with `decimals = 18`, `normalizedIncome = RAY = 10^27`
and `baseAmount = 10^18`, `calculate_atoken_for_token` returns exactly `10^27`
(that is `baseAmount * RAY / 10^decimals`, as the code's own formula dictates),
not `10^18`; income equal to RAY is not an identity for this code. -/
theorem claim4_theorem :
    calculate_atoken_for_token ((10 : ℚ) ^ 18) ((10 : ℚ) ^ 27) daiConfig = .ok (10 ^ 27) := by
  decide

/-- Claim C2, counterexample: with `baseAmount = 10^29 - 5`,
`normalizedIncome = 1`, the USDC configuration, `calculate_atoken_for_token`
rounds the 29-digit amount up to `10^29` in the 28-digit context, and feeding
the result back through `calculate_token_for_atoken` returns `10^29`, which
exceeds the original base amount by 5. -/
theorem claim2_counterexample :
    calculate_atoken_for_token ((99999999999999999999999999995 : ℤ) : ℚ) ((1 : ℤ) : ℚ)
      usdcConfig = .ok (10 ^ 77) ∧
    calculate_token_for_atoken ((10 ^ 77 : ℤ) : ℚ) ((1 : ℤ) : ℚ) usdcConfig = .ok (10 ^ 29) ∧
    ¬((10 ^ 29 : ℤ) ≤ 99999999999999999999999999995) := by
  exact ⟨by decide, by decide, by decide⟩

/-- Claim C2 (amended): whenever `toReceiptAmount` succeeds with a positive
receipt amount `r` and `toBaseAmount (r, n, d)` succeeds with `b`, the
round-tripped value satisfies `b ≤ a * (1 + 3/10^26)`: it may exceed the
original amount `a`, but only by the relative rounding slack of the 28-digit
decimal context, not more. -/
theorem claim2_theorem (a ni : ℤ) (cfg : TokenConfig) (ha : 0 < a) (hni : 0 < ni)
    (r b : ℤ) (hr : calculate_atoken_for_token (a : ℚ) (ni : ℚ) cfg = .ok r) (hrpos : 0 < r)
    (hb : calculate_token_for_atoken (r : ℚ) (ni : ℚ) cfg = .ok b) :
    (b : ℚ) ≤ (a : ℚ) * (1 + 3 / 10 ^ 26) := by
  have haQ : (0 : ℚ) < (a : ℚ) := by exact_mod_cast ha
  have hniQ : (0 : ℚ) < (ni : ℚ) := by exact_mod_cast hni
  have hrQ : (0 : ℚ) < (r : ℚ) := by exact_mod_cast hrpos
  obtain ⟨-, -, hr_eq⟩ := calculate_atoken_ok_elim _ _ _ _ hr
  obtain ⟨-, -, hb_eq⟩ := calculate_token_ok_elim _ _ _ _ hb
  have hrquot := receiptQuot_pos (a : ℚ) (ni : ℚ) cfg.decimals haQ hniQ
  have hbquot := baseQuot_pos (r : ℚ) (ni : ℚ) cfg.decimals hrQ hniQ
  -- r is at most the receipt quotient, which is at most the exact value + slack
  have hr_le : (r : ℚ) ≤ exactReceipt (a : ℚ) (ni : ℚ) cfg.decimals * (1 + 1 / 10 ^ 26) := by
    rw [hr_eq, pyInt_eq_floor _ hrquot.le]
    exact (Int.floor_le _).trans (receiptQuot_upper _ _ _ haQ hniQ)
  -- b is at most the base quotient of r, which is at most exactBase r + slack
  have hb_le : (b : ℚ) ≤ exactBase (r : ℚ) (ni : ℚ) cfg.decimals * (1 + 1 / 10 ^ 26) := by
    rw [hb_eq, pyInt_eq_floor _ hbquot.le]
    exact (Int.floor_le _).trans (baseQuot_upper _ _ _ hrQ hniQ)
  -- exactBase r ni d = r * (ni * 10^d / RAY^2), and exactReceipt cancels to a
  have hc0 : (0 : ℚ) < (ni : ℚ) * (10 : ℚ) ^ cfg.decimals / RAY ^ 2 := by
    have := RAY_pos
    positivity
  have hbase_eq : exactBase (r : ℚ) (ni : ℚ) cfg.decimals =
      (r : ℚ) * ((ni : ℚ) * (10 : ℚ) ^ cfg.decimals / RAY ^ 2) := by
    rw [exactBase]; ring
  have hcancel : exactReceipt (a : ℚ) (ni : ℚ) cfg.decimals *
      ((ni : ℚ) * (10 : ℚ) ^ cfg.decimals / RAY ^ 2) = (a : ℚ) := by
    have hRne : RAY ≠ 0 := RAY_pos.ne'
    have hnine : (ni : ℚ) ≠ 0 := hniQ.ne'
    have h10ne : ((10 : ℚ) ^ cfg.decimals) ≠ 0 := by positivity
    rw [exactReceipt]
    field_simp
    ring
  have hstep : exactBase (r : ℚ) (ni : ℚ) cfg.decimals ≤ (a : ℚ) * (1 + 1 / 10 ^ 26) := by
    rw [hbase_eq, ← hcancel]
    have := mul_le_mul_of_nonneg_right hr_le hc0.le
    calc (r : ℚ) * ((ni : ℚ) * (10 : ℚ) ^ cfg.decimals / RAY ^ 2)
        ≤ exactReceipt (a : ℚ) (ni : ℚ) cfg.decimals * (1 + 1 / 10 ^ 26) *
          ((ni : ℚ) * (10 : ℚ) ^ cfg.decimals / RAY ^ 2) := this
      _ = exactReceipt (a : ℚ) (ni : ℚ) cfg.decimals *
          ((ni : ℚ) * (10 : ℚ) ^ cfg.decimals / RAY ^ 2) * (1 + 1 / 10 ^ 26) := by ring
  have hfinal : exactBase (r : ℚ) (ni : ℚ) cfg.decimals * (1 + 1 / 10 ^ 26) ≤
      (a : ℚ) * (1 + 1 / 10 ^ 26) * (1 + 1 / 10 ^ 26) :=
    mul_le_mul_of_nonneg_right hstep (by norm_num)
  have hsq : (a : ℚ) * (1 + 1 / 10 ^ 26) * (1 + 1 / 10 ^ 26) ≤ (a : ℚ) * (1 + 3 / 10 ^ 26) := by
    have hnum : ((1 : ℚ) + 1 / 10 ^ 26) * (1 + 1 / 10 ^ 26) ≤ 1 + 3 / 10 ^ 26 := by norm_num
    calc (a : ℚ) * (1 + 1 / 10 ^ 26) * (1 + 1 / 10 ^ 26)
        = (a : ℚ) * ((1 + 1 / 10 ^ 26) * (1 + 1 / 10 ^ 26)) := by ring
      _ ≤ (a : ℚ) * (1 + 3 / 10 ^ 26) := mul_le_mul_of_nonneg_left hnum haQ.le
  linarith

/-- Witness for claim C2's theorem: `baseAmount = 1`, `normalizedIncome = 1`,
the USDC configuration; the receipt amount is `10^48` and the round trip
returns `1 ≤ 1 * (1 + 3/10^26)`. -/
theorem claim2_witness :
    ((1 : ℤ) : ℚ) ≤ ((1 : ℤ) : ℚ) * (1 + 3 / 10 ^ 26) :=
  claim2_theorem 1 1 usdcConfig (by norm_num) (by norm_num) (10 ^ 48) 1 (by decide)
    (by positivity) (by decide)

/-- Claim C5: for both conversion operations, a nonpositive amount always
yields the `ValueError` message "Amount must be a positive number", and (with a
positive amount) a nonpositive normalized income always yields "Normalized
income must be a positive number"; in particular on such inputs neither
operation ever returns a result (such as 0). -/
theorem claim5_theorem (amount ni : ℚ) (cfg : TokenConfig) :
    (amount ≤ 0 →
      calculate_atoken_for_token amount ni cfg = .error "Amount must be a positive number" ∧
      calculate_token_for_atoken amount ni cfg = .error "Amount must be a positive number") ∧
    (0 < amount → ni ≤ 0 →
      calculate_atoken_for_token amount ni cfg =
        .error "Normalized income must be a positive number" ∧
      calculate_token_for_atoken amount ni cfg =
        .error "Normalized income must be a positive number") ∧
    (amount ≤ 0 ∨ ni ≤ 0 → ∀ r : ℤ,
      calculate_atoken_for_token amount ni cfg ≠ .ok r ∧
      calculate_token_for_atoken amount ni cfg ≠ .ok r) := by
  refine ⟨fun ha => ⟨calculate_atoken_err_amount _ _ _ ha, calculate_token_err_amount _ _ _ ha⟩,
    fun ha hni => ⟨calculate_atoken_err_income _ _ _ ha hni,
      calculate_token_err_income _ _ _ ha hni⟩, fun h r => ⟨?_, ?_⟩⟩
  · intro hok
    obtain ⟨ha, hni, -⟩ := calculate_atoken_ok_elim _ _ _ _ hok
    rcases h with h | h <;> linarith
  · intro hok
    obtain ⟨ha, hni, -⟩ := calculate_token_ok_elim _ _ _ _ hok
    rcases h with h | h <;> linarith

/-- Witness for claim C5's theorem at `amount = 0`, `normalizedIncome = 10^27`,
the USDC configuration. -/
theorem claim5_witness :
    calculate_atoken_for_token 0 ((10 : ℚ) ^ 27) usdcConfig =
      .error "Amount must be a positive number" ∧
    calculate_token_for_atoken 0 ((10 : ℚ) ^ 27) usdcConfig =
      .error "Amount must be a positive number" :=
  (claim5_theorem 0 ((10 : ℚ) ^ 27) usdcConfig).1 le_rfl

/-- Claim C6: `calculate_atoken_for_token` is monotonically non-decreasing in
the base amount for fixed normalized income and configuration: when both calls
succeed, `baseAmount1 ≤ baseAmount2` implies `result1 ≤ result2`. -/
theorem claim6_theorem (a1 a2 ni : ℤ) (cfg : TokenConfig) (h1 : 0 < a1) (h12 : a1 ≤ a2)
    (hni : 0 < ni) (r1 r2 : ℤ)
    (e1 : calculate_atoken_for_token (a1 : ℚ) (ni : ℚ) cfg = .ok r1)
    (e2 : calculate_atoken_for_token (a2 : ℚ) (ni : ℚ) cfg = .ok r2) :
    r1 ≤ r2 := by
  have h1Q : (0 : ℚ) < (a1 : ℚ) := by exact_mod_cast h1
  have h12Q : (a1 : ℚ) ≤ (a2 : ℚ) := by exact_mod_cast h12
  have hniQ : (0 : ℚ) < (ni : ℚ) := by exact_mod_cast hni
  have h2Q : (0 : ℚ) < (a2 : ℚ) := h1Q.trans_le h12Q
  obtain ⟨-, -, hr1⟩ := calculate_atoken_ok_elim _ _ _ _ e1
  obtain ⟨-, -, hr2⟩ := calculate_atoken_ok_elim _ _ _ _ e2
  have hq1 := receiptQuot_pos (a1 : ℚ) (ni : ℚ) cfg.decimals h1Q hniQ
  have hq2 := receiptQuot_pos (a2 : ℚ) (ni : ℚ) cfg.decimals h2Q hniQ
  rw [hr1, hr2, pyInt_eq_floor _ hq1.le, pyInt_eq_floor _ hq2.le]
  exact Int.floor_le_floor (receiptQuot_mono _ _ _ _ h1Q h12Q hniQ)

/-- Witness for claim C6's theorem at `baseAmount1 = 1`, `baseAmount2 = 2`,
`normalizedIncome = 1`, the USDC configuration (results `10^48 ≤ 2 * 10^48`). -/
theorem claim6_witness : (10 ^ 48 : ℤ) ≤ 2 * 10 ^ 48 :=
  claim6_theorem 1 2 1 usdcConfig (by norm_num) (by norm_num) (by norm_num)
    (10 ^ 48) (2 * 10 ^ 48) (by decide) (by decide)

/-- Claim C7, counterexample: `format_amount 999999 12` prints `"0.000001"`,
but truncating `999999 * 10^-12` at six fractional digits would keep
`floor(999999 / 10^12 * 10^6) = 0`, i.e. print `"0.000000"`: the formatter
rounds (half to even), it does not truncate. -/
theorem claim7_counterexample :
    format_amount 999999 12 = "0.000001" ∧ (⌊(999999 : ℚ) / 10 ^ 12 * 1000000⌋ : ℤ) = 0 := by
  exact ⟨by decide, by decide⟩

/-- Claim C7 (amended): `format_amount` renders a nonnegative base-unit
integer as a fixed-point string with exactly six fractional digits after
scaling by `10^-decimals`, rounding half to even (not truncating) at the sixth
digit: the printed digit string is `n / 10^6 "." n % 10^6` for an integer `n`
within one half (plus the 28-significant-digit division slack) of the exact
scaled value; in particular `format_amount 1500000 6 = "1.500000"` and
`format_amount 1 18 = "0.000000"`. -/
theorem claim7_theorem :
    (∀ (amount : ℤ) (decimals : ℕ), 0 ≤ amount →
      ∃ n : ℕ, format_amount amount decimals =
          toString (n / 1000000) ++ "." ++ pad6 (toString (n % 1000000)) ∧
        |(n : ℚ) - (amount : ℚ) / 10 ^ decimals * 1000000| ≤
          1 / 2 + (amount : ℚ) / 10 ^ decimals * 1000000 * (1 / (2 * 10 ^ 27))) ∧
    format_amount 1500000 6 = "1.500000" ∧ format_amount 1 18 = "0.000000" := by
  refine ⟨?_, by decide, by decide⟩
  intro amount decimals ha
  refine ⟨(rne (decDiv (amount : ℚ) ((10 : ℚ) ^ decimals) * 1000000)).toNat, rfl, ?_⟩
  rcases eq_or_lt_of_le ha with h0 | hpos
  · rw [← h0]
    have hdec : decDiv (((0 : ℤ) : ℚ)) ((10 : ℚ) ^ decimals) = 0 := by
      rw [decDiv, Int.cast_zero, zero_div, decRound28, if_pos le_rfl]
    rw [hdec, zero_mul]
    have hrne0 : rne 0 = 0 := by rw [rne]; simp
    rw [hrne0]
    simp
  · have hQ : (0 : ℚ) < (amount : ℚ) := by exact_mod_cast hpos
    have hq0pos : 0 < (amount : ℚ) / (10 : ℚ) ^ decimals := by positivity
    have hdecdiv : decDiv (amount : ℚ) ((10 : ℚ) ^ decimals) =
        decRound28 ((amount : ℚ) / (10 : ℚ) ^ decimals) := by rw [decDiv]
    have hup := decRound28_le_mul _ hq0pos
    have hlo := decRound28_ge_mul _ hq0pos
    have hxpos := decRound28_pos _ hq0pos
    set N : ℤ := rne (decDiv (amount : ℚ) ((10 : ℚ) ^ decimals) * 1000000) with hN
    have hNup : (N : ℚ) ≤ decDiv (amount : ℚ) ((10 : ℚ) ^ decimals) * 1000000 + 1 / 2 :=
      rne_le _
    have hNlo : decDiv (amount : ℚ) ((10 : ℚ) ^ decimals) * 1000000 - 1 / 2 ≤ (N : ℚ) :=
      rne_ge _
    have hNnn : 0 ≤ N := by
      rw [hN]
      apply rne_nonneg
      rw [hdecdiv]
      positivity
    have hcast : ((N.toNat : ℚ)) = (N : ℚ) := by
      rw [← Int.cast_natCast, Int.toNat_of_nonneg hNnn]
    rw [hcast, abs_le]
    rw [hdecdiv] at hNup hNlo
    constructor
    · nlinarith
    · nlinarith

/-- Witness for claim C7's theorem at `amount = 1500000`, `decimals = 6`. -/
theorem claim7_witness :
    ∃ n : ℕ, format_amount 1500000 6 =
        toString (n / 1000000) ++ "." ++ pad6 (toString (n % 1000000)) ∧
      |(n : ℚ) - ((1500000 : ℤ) : ℚ) / 10 ^ 6 * 1000000| ≤
        1 / 2 + ((1500000 : ℤ) : ℚ) / 10 ^ 6 * 1000000 * (1 / (2 * 10 ^ 27)) :=
  claim7_theorem.1 1500000 6 (by norm_num)

/-- Claim C8: looking up a symbol absent from the `TOKENS` registry always
fails with the "Unsupported token" error and never returns any configuration;
looking up a present symbol succeeds with exactly that symbol's configuration
(and `get_normalized_income` then returns the fetched on-chain value). -/
theorem claim8_theorem (symbol : String) (fetch : String → ℤ) :
    (symbol ∉ TOKENS.map Prod.fst →
      lookupToken symbol = .error ("Unsupported token: " ++ symbol) ∧
      get_normalized_income fetch symbol = .error ("Unsupported token: " ++ symbol) ∧
      ∀ cfg : TokenConfig, lookupToken symbol ≠ .ok cfg) ∧
    (∀ cfg : TokenConfig, (symbol, cfg) ∈ TOKENS →
      lookupToken symbol = .ok cfg ∧
      get_normalized_income fetch symbol = .ok (fetch symbol)) := by
  constructor
  · intro h
    simp only [TOKENS, List.map, List.mem_cons, List.not_mem_nil, or_false] at h
    push_neg at h
    obtain ⟨h1, h2, h3, h4, h5⟩ := h
    have hnone : TOKENS.lookup symbol = none := by
      simp [TOKENS, List.lookup, beq_eq_false_iff_ne.mpr h1, beq_eq_false_iff_ne.mpr h2,
        beq_eq_false_iff_ne.mpr h3, beq_eq_false_iff_ne.mpr h4, beq_eq_false_iff_ne.mpr h5]
    refine ⟨?_, ?_, ?_⟩
    · rw [lookupToken, hnone]
    · rw [get_normalized_income, hnone]
      simp
    · intro cfg
      rw [lookupToken, hnone]
      simp
  · intro cfg hmem
    simp only [TOKENS, List.mem_cons, List.not_mem_nil, or_false, Prod.mk.injEq] at hmem
    rcases hmem with ⟨h1, h2⟩ | ⟨h1, h2⟩ | ⟨h1, h2⟩ | ⟨h1, h2⟩ | ⟨h1, h2⟩ <;>
      subst h1 <;> subst h2 <;> exact ⟨rfl, rfl⟩

/-- Witness for claim C8's theorem: `"USDC"` is present, so the lookup
succeeds with the USDC configuration and `get_normalized_income` returns the
fetched value. -/
theorem claim8_witness :
    lookupToken "USDC" = .ok usdcConfig ∧
    get_normalized_income (fun _ => (7 : ℤ)) "USDC" = .ok 7 :=
  (claim8_theorem usdcConfig.symbol (fun _ => (7 : ℤ))).2 usdcConfig (by decide)

/-- Claim C9: input validation of both conversion operations accepts exactly
the strictly positive numeric inputs (any positive rational value, as produced
by a Python int or float, is accepted; zero or negative values raise the
invalid-input error), and on success the returned integer is the decimal
quotient truncated toward zero: `result ≤ quotient < result + 1`. -/
theorem claim9_theorem (amount ni : ℚ) (cfg : TokenConfig) :
    ((∃ r : ℤ, calculate_atoken_for_token amount ni cfg = .ok r) ↔ 0 < amount ∧ 0 < ni) ∧
    ((∃ r : ℤ, calculate_token_for_atoken amount ni cfg = .ok r) ↔ 0 < amount ∧ 0 < ni) ∧
    (∀ r : ℤ, calculate_atoken_for_token amount ni cfg = .ok r →
      (r : ℚ) ≤ receiptQuot amount ni cfg.decimals ∧
      receiptQuot amount ni cfg.decimals < (r : ℚ) + 1) ∧
    (∀ r : ℤ, calculate_token_for_atoken amount ni cfg = .ok r →
      (r : ℚ) ≤ baseQuot amount ni cfg.decimals ∧
      baseQuot amount ni cfg.decimals < (r : ℚ) + 1) := by
  refine ⟨⟨?_, ?_⟩, ⟨?_, ?_⟩, ?_, ?_⟩
  · rintro ⟨r, hr⟩
    obtain ⟨ha, hni, -⟩ := calculate_atoken_ok_elim _ _ _ _ hr
    exact ⟨ha, hni⟩
  · rintro ⟨ha, hni⟩
    exact ⟨_, calculate_atoken_eq_ok _ _ _ ha hni⟩
  · rintro ⟨r, hr⟩
    obtain ⟨ha, hni, -⟩ := calculate_token_ok_elim _ _ _ _ hr
    exact ⟨ha, hni⟩
  · rintro ⟨ha, hni⟩
    exact ⟨_, calculate_token_eq_ok _ _ _ ha hni⟩
  · intro r hr
    obtain ⟨ha, hni, hre⟩ := calculate_atoken_ok_elim _ _ _ _ hr
    have hq := receiptQuot_pos amount ni cfg.decimals ha hni
    rw [hre, pyInt_eq_floor _ hq.le]
    exact ⟨Int.floor_le _, Int.lt_floor_add_one _⟩
  · intro r hr
    obtain ⟨ha, hni, hre⟩ := calculate_token_ok_elim _ _ _ _ hr
    have hq := baseQuot_pos amount ni cfg.decimals ha hni
    rw [hre, pyInt_eq_floor _ hq.le]
    exact ⟨Int.floor_le _, Int.lt_floor_add_one _⟩

/-- Witness for claim C9's theorem: the non-integral positive amount `3/2`
(a float at the Python boundary) is accepted by `calculate_atoken_for_token`. -/
theorem claim9_witness :
    ∃ r : ℤ, calculate_atoken_for_token (3 / 2) 1 usdcConfig = .ok r :=
  (claim9_theorem (3 / 2) 1 usdcConfig).1.mpr ⟨by norm_num, by norm_num⟩

/-- Claim C10: registry well-formedness: every entry of the static `TOKENS`
registry has `symbol` equal to its lookup key and `decimals` between 0 and 18
inclusive (`decimals` is a natural number, so the lower bound is automatic). -/
theorem claim10_theorem : ∀ p ∈ TOKENS, p.2.symbol = p.1 ∧ p.2.decimals ≤ 18 := by
  decide

/-- Witness for claim C10's theorem at the USDC entry. -/
theorem claim10_witness : usdcConfig.symbol = "USDC" ∧ usdcConfig.decimals ≤ 18 :=
  claim10_theorem ("USDC", usdcConfig) (by decide)

end AaveTest
